import Mathlib

/-!
Verification development for the student-roster application (src/app.py).

The application is a single-process CRUD dashboard over a student table
persisted as a CSV file, plus a small JSON configuration document.  This
file gives a shallow embedding of the record-store core:

* a typed view of the student table (`Student`, the create / update /
  delete handlers, and the id allocator `newId`), translated from the
  handler code at app.py lines 186-338;
* a cell-level view of the stored table (`Cell`, `Column`, `RawTable`)
  together with a model of the CSV write / read cycle, including the
  column type inference the dataframe library performs on read
  (app.py lines 52-79);
* the search handler over text-typed columns (app.py lines 345-353),
  including the rendering of missing values performed by `astype(str)`
  before matching and the regex reading of the query that
  `Series.str.contains` applies by default;
* the configuration loader (app.py lines 26-49).

Machine integers of the source are modelled as `Int`, the grade slider
value as `Rat`, timestamps as opaque strings passed in as a parameter.
-/

/-! ### String helpers (models of Python `str.lower`, `str.replace`) -/

/-- Lowercase one character as Python `str.lower` does, over the Basic
Latin and Latin-1 blocks together with Œ and Ÿ — the full repertoire of
the application's French data (its defaults hold É, é, è, and the like).
On this repertoire the mapping agrees with Python's Unicode simple case
mapping: A-Z and the Latin-1 uppercase runs À-Ö and Ø-Þ move down by 32,
Œ (U+0152) maps to œ (U+0153) and Ÿ (U+0178) to ÿ (U+00FF); characters
outside the repertoire (already-lowercase letters, digits, punctuation,
non-Latin scripts) are left unchanged. -/
def pyLowerChar (c : Char) : Char :=
  if 65 ≤ c.toNat ∧ c.toNat ≤ 90 then Char.ofNat (c.toNat + 32)
  else if (192 ≤ c.toNat ∧ c.toNat ≤ 214) ∨ (216 ≤ c.toNat ∧ c.toNat ≤ 222) then
    Char.ofNat (c.toNat + 32)
  else if c.toNat = 338 then Char.ofNat 339
  else if c.toNat = 376 then Char.ofNat 255
  else c

/-- Lowercase a string characterwise (Python `str.lower` on the Latin
repertoire described at `pyLowerChar`). -/
def pyLowerStr (s : String) : String :=
  String.mk (s.data.map pyLowerChar)

/-- Model of `str.replace(" ", "")`: drop every space. -/
def removeSpaces (s : String) : String :=
  String.mk (s.data.filter (fun c => c ≠ ' '))

/-! ### The typed student table -/

/-- One row of the student table, with the ten canonical columns of
`create_empty_dataframe` (app.py lines 68-73). -/
structure Student where
  id : Int
  nom : String
  prenom : String
  specialite : String
  moyenne_generale : Rat
  age : Int
  date_inscription : String
  email : String
  credits : Int
  statut : String
deriving DecidableEq

/-- The in-memory dataframe together with the persisted CSV contents.
`save_data` (app.py lines 75-79) overwrites storage with the whole
in-memory table. -/
structure AppState where
  table : List Student
  storage : List Student
deriving DecidableEq

/-- Reading the persisted table back, as the handlers' `load_data` does on
the next interaction (storage is the authoritative copy after a save). -/
def reload (s : AppState) : List Student :=
  s.storage

/-- Maximum of the id column of a non-empty table, as `df["id"].max()`
computes it (app.py line 210). -/
def maxId : List Student → Int
  | [] => 0
  | s :: rest => rest.foldl (fun m r => max m r.id) s.id

/-- Identifier allocation of the create handler (app.py line 210):
`df["id"].max() + 1 if "id" in df.columns and len(df) > 0 else 1`. -/
def newId (t : List Student) : Int :=
  if t.length > 0 then maxId t + 1 else 1

/-- Input of the create form (app.py lines 193-204).  An absent optional
email arrives as the empty string, exactly as the text widget yields it. -/
structure CreateInput where
  nom : String
  prenom : String
  specialite : String
  moyenne : Rat
  age : Int
  email : String
  credits : Int
deriving DecidableEq

/-- Email derivation of the create handler (app.py line 219):
`f"{prenom.lower()}.{nom.lower()}@{university_name.lower().replace(' ', '')}.fr"`. -/
def deriveEmail (universityName prenom nom : String) : String :=
  pyLowerStr prenom ++ "." ++ pyLowerStr nom ++ "@" ++
    removeSpaces (pyLowerStr universityName) ++ ".fr"

/-- The `new_student` record built by the create handler
(app.py lines 211-222).  `now` is the formatted `datetime.now()` value. -/
def newStudent (universityName now : String) (t : List Student)
    (i : CreateInput) : Student :=
  { id := newId t
    nom := i.nom
    prenom := i.prenom
    specialite := i.specialite
    moyenne_generale := i.moyenne
    age := i.age
    date_inscription := now
    email := if i.email != "" then i.email
             else deriveEmail universityName i.prenom i.nom
    credits := i.credits
    statut := "Actif" }

/-- Outcome reported by the create handler: success with the allocated id
(app.py line 229) or the required-fields error message (line 232). -/
inductive CreateResult
  | ok (newId : Int)
  | validationError
deriving DecidableEq

/-- The create handler (app.py lines 208-232): when `nom`, `prenom` and
`specialite` are all non-empty (Python truthiness of the three strings),
append the new record and persist; otherwise report the validation error
and touch nothing. -/
def createHandler (universityName now : String) (st : AppState)
    (i : CreateInput) : AppState × CreateResult :=
  if i.nom != "" && i.prenom != "" && i.specialite != "" then
    let s := newStudent universityName now st.table i
    let t := st.table ++ [s]
    (⟨t, t⟩, CreateResult.ok s.id)
  else
    (st, CreateResult.validationError)

/-- Input of the update form (app.py lines 249-287): the eight mutable
columns of `update_cols` (line 293). -/
structure UpdateInput where
  nom : String
  prenom : String
  specialite : String
  moyenne : Rat
  age : Int
  email : String
  credits : Int
  statut : String
deriving DecidableEq

/-- Overwrite the eight mutable columns of one row, as the loop
`df.loc[df["id"] == student_id, col] = val` does for a selected row
(app.py lines 293-297); `id` and `date_inscription` are not in
`update_cols`. -/
def applyUpdate (u : UpdateInput) (s : Student) : Student :=
  { s with
    nom := u.nom
    prenom := u.prenom
    specialite := u.specialite
    moyenne_generale := u.moyenne
    age := u.age
    email := u.email
    credits := u.credits
    statut := u.statut }

/-- Effect of the update assignment on the whole table: the boolean mask
`df["id"] == student_id` selects every row whose id matches, and each of
the eight columns is overwritten on all of them (app.py lines 296-297). -/
def updateStudents (t : List Student) (sid : Int) (u : UpdateInput) :
    List Student :=
  t.map (fun s => if s.id = sid then applyUpdate u s else s)

/-- The update handler followed by its `save_data` (app.py lines 293-299). -/
def updateHandler (st : AppState) (sid : Int) (u : UpdateInput) : AppState :=
  let t := updateStudents st.table sid u
  ⟨t, t⟩

/-- Row removal of the delete handler: `df = df[df["id"] != student_id]`
(app.py line 329). -/
def deleteStudent (t : List Student) (sid : Int) : List Student :=
  t.filter (fun s => s.id ≠ sid)

/-- The delete handler followed by its `save_data` (app.py lines 327-330). -/
def deleteHandler (st : AppState) (sid : Int) : AppState :=
  let t := deleteStudent st.table sid
  ⟨t, t⟩

/-- Append-mode bulk import: `pd.concat([df, new_df], ignore_index=True)`
(app.py line 522); no id is reassigned and no duplicate check runs. -/
def importAppend (t newRows : List Student) : List Student :=
  t ++ newRows

/-! ### The search handler (app.py lines 345-353) -/

/-- Does `n` occur at the head of `h`?  Elementwise comparison, the model
of startswith over character lists. -/
def leadsWith : List Char → List Char → Bool
  | [], _ => true
  | _ :: _, [] => false
  | a :: as, b :: bs => a == b && leadsWith as bs

/-- Does `n` occur contiguously somewhere in `h`?  Model of the Python
substring test used by `str.contains`. -/
def occursIn (n : List Char) (h : List Char) : Bool :=
  match h with
  | [] => n.isEmpty
  | _ :: t => leadsWith n h || occursIn n t

/-- One cell of a text-typed (object-dtype) column as the search sees it.
Only object columns take part in the mask, since the handler skips every
column whose dtype is not object (app.py line 350); an object column is
reachable with missing values only when it also holds at least one
string (an all-missing parsed column is floating point and is skipped).
Missing values come in two flavours with different `astype(str)`
renderings: the float NaN produced by `read_csv` for an empty field, and
the Python None placed by the synthesis loop `df[col] = None`. -/
inductive TextCell
  | present (s : String)
  | naFloat
  | naNone
deriving DecidableEq

/-- A row restricted to its text-typed columns. -/
abbrev SearchRow := List TextCell

/-- What `astype(str)` makes of a cell before matching (app.py line 351):
a present string stays itself, a read-time NaN renders as "nan", a
synthesized None renders as "None". -/
def renderCell : TextCell → String
  | TextCell.present s => s
  | TextCell.naFloat => "nan"
  | TextCell.naNone => "None"

/-- `Series.str.contains` treats the query as a regular expression
(`regex=True` is the pandas default).  The model covers the fragment in
which every pattern character stands for itself except `.`, which
matches any single character: a token is a literal or the any-char dot. -/
inductive PatTok
  | anyChar
  | lit (c : Char)
deriving DecidableEq

/-- The regex metacharacters other than `.`.  A query containing one is
interpreted by the program as a regex operator (or raises on an invalid
pattern) and is outside the modelled fragment. -/
def regexMeta : List Char :=
  ['\\', '^', '$', '*', '+', '?', '\x7b', '\x7d', '[', ']', '|', '(', ')']

/-- Parse a query into the literal-and-dot fragment; `none` when the
query uses a regex operator beyond the fragment. -/
def parsePattern : List Char → Option (List PatTok)
  | [] => some []
  | c :: rest =>
    if c = '.' then (parsePattern rest).map (fun ps => PatTok.anyChar :: ps)
    else if c ∈ regexMeta then none
    else (parsePattern rest).map (fun ps => PatTok.lit c :: ps)

/-- Does one pattern token match one character? -/
def tokMatches : PatTok → Char → Bool
  | PatTok.anyChar, _ => true
  | PatTok.lit c, d => c == d

/-- Does the pattern match a prefix of the text? -/
def matchHere : List PatTok → List Char → Bool
  | [], _ => true
  | _ :: _, [] => false
  | p :: ps, c :: cs => tokMatches p c && matchHere ps cs

/-- The search semantics of `re.search` on the fragment: the pattern
matches at some position of the text. -/
def regexSearch (p : List PatTok) (s : List Char) : Bool :=
  match s with
  | [] => p.isEmpty
  | _ :: t => matchHere p s || regexSearch p t

/-- One cell's contribution to the search mask (app.py line 351): the
lowercased query pattern is searched in the lowercased rendered value. -/
def cellMatches (p : List PatTok) (c : TextCell) : Bool :=
  regexSearch p (pyLowerStr (renderCell c)).data

/-- A row is in the mask when any of its text columns matches: the mask
is built by or-ing the per-column tests (app.py lines 348-351). -/
def rowMatches (p : List PatTok) (r : SearchRow) : Bool :=
  r.any (cellMatches p)

/-- The search result `results = df[mask]` (app.py lines 345-353): the
query is lowercased, used as a regex pattern against each lowercased
rendered cell, and the matching rows are kept; a query outside the
modelled regex fragment yields no modelled result. -/
def searchRows (t : List SearchRow) (q : String) : Option (List SearchRow) :=
  (parsePattern (pyLowerStr q).data).map (fun p => t.filter (rowMatches p))

/-- Is every character of the lowercased query free of regex meaning
(no metacharacter and no dot)?  On such queries regex search is literal
substring containment. -/
def litQuery (q : String) : Bool :=
  (pyLowerStr q).data.all (fun c => !(c ∈ regexMeta) && c != '.')

/-- Matching as the specification describes it: the lowercased query is
contained in the lowercased value of some PRESENT text cell; a missing
value matches nothing.  Used to compare the code's mask against the
specified one. -/
def specCellMatches (q : String) (c : TextCell) : Bool :=
  match c with
  | TextCell.present v => occursIn (pyLowerStr q).data (pyLowerStr v).data
  | _ => false

/-- Row-level version of `specCellMatches`. -/
def specRowMatches (q : String) (r : SearchRow) : Bool :=
  r.any (specCellMatches q)

/-! ### The configuration loader (app.py lines 26-49) -/

/-- The configuration document (app.py lines 28-38 list the default). -/
structure Config where
  university_name : String
  max_students : Int
  min_age : Int
  max_age : Int
  specialties : List String
  version : String
deriving DecidableEq

/-- The hardcoded `default_config` (app.py lines 28-38). -/
def default_config : Config :=
  { university_name := "Université Azure"
    max_students := 1000
    min_age := 16
    max_age := 70
    specialties := ["Informatique", "Mathématiques", "Physique",
                    "Chimie", "Biologie", "Économie", "Droit", "Médecine"]
    version := "1.0.0" }

/-- State of the configuration file on disk: absent, present but not
parseable as JSON (the `except` branch), or present and parsed to `c`. -/
inductive ConfigFile
  | absent
  | unparseable (raw : String)
  | parsed (c : Config)
deriving DecidableEq

/-- The loader `load_config` (app.py lines 26-49), returning the
configuration it yields together with the file state it leaves behind:
a parse failure returns the defaults and leaves the file alone; an absent
file gets the defaults written out. -/
def load_config : ConfigFile → Config × ConfigFile
  | ConfigFile.absent => (default_config, ConfigFile.parsed default_config)
  | ConfigFile.unparseable r => (default_config, ConfigFile.unparseable r)
  | ConfigFile.parsed c => (c, ConfigFile.parsed c)

/-! ### Cell-level model of the stored table and the CSV codec

`save_data` writes the dataframe with `to_csv` (app.py line 79) and
`load_data` reads it back with `read_csv` (line 56).  `read_csv` infers a
type per column: a column whose entries are all integer literals comes
back as integers; a column whose entries are all numeric-shaped or
missing comes back as floating point, and all boolean words or missing
as booleans; any other column comes back as text, with the reader's
missing-value sentinels ("", "nan", "NA", "None", "NULL", ...) read as
missing.  The model keeps a column as its list of cells; quoting of
delimiters round-trips in the real format and is therefore left
transparent here.  Floating-point and boolean cells are outside the
value-level model: grade cells are taken as integers, and a column the
reader would convert to float or bool is modelled as having no modelled
result.  Two readers appear below: `readColumn`, the name-and-count
level reader backing the column-synthesis claims (where cell typing is
irrelevant), and `readColumnInfer`, the full type-inference model
backing the round-trip claims. -/

/-- A stored cell: integer, text, or missing. -/
inductive Cell
  | int (n : Int)
  | str (s : String)
  | na
deriving DecidableEq

/-- A named column of cells. -/
structure Column where
  name : String
  cells : List Cell
deriving DecidableEq

/-- A dataframe as its list of named columns. -/
abbrev RawTable := List Column

/-- The decimal digit character for `d < 10`. -/
def digitChar (d : Nat) : Char :=
  Char.ofNat (48 + d)

/-- Decimal digits, most significant first; structural recursion on a
fuel bound (any fuel above the value itself is enough). -/
def natToDigitsAux : Nat → Nat → List Char
  | 0, _ => []
  | fuel + 1, n =>
    if n < 10 then [digitChar n]
    else natToDigitsAux fuel (n / 10) ++ [digitChar (n % 10)]

/-- Decimal digits of a natural number, most significant first. -/
def natToDigits (n : Nat) : List Char :=
  natToDigitsAux (n + 1) n

/-- Decimal rendering of an integer, as `to_csv` writes an int64 cell. -/
def intToStr (n : Int) : String :=
  if n < 0 then String.mk ('-' :: natToDigits n.natAbs)
  else String.mk (natToDigits n.toNat)

/-- Is `c` a decimal digit? -/
def isDigitB (c : Char) : Bool :=
  48 ≤ c.toNat && c.toNat ≤ 57

/-- Does `s` read as an integer literal (optional minus sign, then a
non-empty digit run)?  This is the shape `read_csv` converts to int. -/
def isIntString (s : String) : Bool :=
  match s.data with
  | [] => false
  | c :: rest =>
    if c = '-' then !rest.isEmpty && rest.all isDigitB
    else isDigitB c && rest.all isDigitB

/-- Value of a digit run, most significant first. -/
def digitsVal (l : List Char) : Nat :=
  l.foldl (fun a c => a * 10 + (c.toNat - 48)) 0

/-- Integer value of an integer literal (callers establish `isIntString`). -/
def strToInt (s : String) : Int :=
  match s.data with
  | [] => 0
  | c :: rest =>
    if c = '-' then - (digitsVal rest : Int) else (digitsVal (c :: rest) : Int)

/-- Serialization of one cell (missing values print as empty fields). -/
def writeCell : Cell → String
  | Cell.int n => intToStr n
  | Cell.str s => s
  | Cell.na => ""

/-- Reading one entry of a column that was NOT inferred as integer: an
empty entry is missing, everything else stays text. -/
def readCellStr (s : String) : Cell :=
  if s = "" then Cell.na else Cell.str s

/-- Reading a whole column with type inference: all entries integer
literals means an integer column, otherwise a text column with missing
entries for empty fields. -/
def readColumn (name : String) (raws : List String) : Column :=
  if raws.all isIntString then
    ⟨name, raws.map (fun r => Cell.int (strToInt r))⟩
  else
    ⟨name, raws.map readCellStr⟩

/-- `save_data` (app.py lines 75-79): each column serialized entrywise,
keeping its header name. -/
def saveTable (t : RawTable) : List (String × List String) :=
  t.map (fun c => (c.name, c.cells.map writeCell))

/-- The `read_csv` step of `load_data` (app.py line 56). -/
def loadTable (raw : List (String × List String)) : RawTable :=
  raw.map (fun p => readColumn p.1 p.2)

/-- The `required_columns` list of `load_data` (app.py line 58).  Note it
stops at `email`: `credits` and `statut` are not in it. -/
def requiredColumns : List String :=
  ["id", "nom", "prenom", "specialite", "moyenne_generale", "age",
   "date_inscription", "email"]

/-- The ten columns of `create_empty_dataframe` (app.py lines 68-73). -/
def canonicalColumns : List String :=
  requiredColumns ++ ["credits", "statut"]

/-- The empty dataframe with the canonical schema (app.py lines 68-73). -/
def create_empty_dataframe : RawTable :=
  canonicalColumns.map (fun r => ⟨r, []⟩)

/-- Row count of a dataframe (all columns share one length). -/
def nrows : RawTable → Nat
  | [] => 0
  | c :: _ => c.cells.length

/-- The column-synthesis loop of `load_data` (app.py lines 58-61): each
required column absent from the frame is appended, filled with missing
values (`df[col] = None`). -/
def ensureRequired (t : RawTable) : RawTable :=
  t ++ (requiredColumns.filter
          (fun r => !(t.any (fun col => col.name == r)))).map
        (fun r => ⟨r, List.replicate (nrows t) Cell.na⟩)

/-- `load_data` on a present, parseable file (app.py lines 54-62):
`read_csv` followed by the required-column synthesis. -/
def load_data (raw : List (String × List String)) : RawTable :=
  ensureRequired (loadTable raw)

/-- Is the cell an integer? -/
def isIntCell : Cell → Bool
  | Cell.int _ => true
  | _ => false

/-- Is the cell non-empty text? -/
def nonEmptyText : Cell → Bool
  | Cell.str s => s != ""
  | _ => false

/-- Is the cell text or missing (never an integer)? -/
def textOrNa : Cell → Bool
  | Cell.str _ => true
  | Cell.na => true
  | Cell.int _ => false

/-- Does the column carry this name with every cell satisfying `p`? -/
def columnIs (c : Column) (nm : String) (p : Cell → Bool) : Bool :=
  c.name == nm && c.cells.all p

/-- A table conforming to the canonical schema of the specification's
data model: exactly the ten canonical columns in order, with integer
id / grade / age / credits cells, required non-empty text for
nom / prenom / specialite, and text-or-missing for the remaining
text columns. -/
def conforming (t : RawTable) : Bool :=
  match t with
  | [k1, k2, k3, k4, k5, k6, k7, k8, k9, k10] =>
      columnIs k1 "id" isIntCell &&
      columnIs k2 "nom" nonEmptyText &&
      columnIs k3 "prenom" nonEmptyText &&
      columnIs k4 "specialite" nonEmptyText &&
      columnIs k5 "moyenne_generale" isIntCell &&
      columnIs k6 "age" isIntCell &&
      columnIs k7 "date_inscription" textOrNa &&
      columnIs k8 "email" textOrNa &&
      columnIs k9 "credits" isIntCell &&
      columnIs k10 "statut" textOrNa
  | _ => false

/-- The default missing-value sentinels of `read_csv`: a stored entry
equal to one of these strings is read as a missing value. -/
def naSentinels : List String :=
  ["", "#N/A", "#N/A N/A", "#NA", "-1.#IND", "-1.#QNAN", "-NaN", "-nan",
   "1.#IND", "1.#QNAN", "<NA>", "N/A", "NA", "NULL", "NaN", "None",
   "n/a", "nan", "null"]

/-- Is the entry a missing-value sentinel? -/
def isNaSentinel (s : String) : Bool :=
  naSentinels.contains s

/-- Characters that can occur in a decimal or scientific numeric
literal. -/
def numericChar (c : Char) : Bool :=
  isDigitB c || c == '+' || c == '-' || c == '.' || c == 'e' || c == 'E'

/-- Drop one leading sign. -/
def stripSign : List Char → List Char
  | '+' :: rest => rest
  | '-' :: rest => rest
  | l => l

/-- Is the entry an infinity word ("inf" or "infinity", any case, with an
optional sign), which the reader also converts to floating point? -/
def infWord (s : String) : Bool :=
  stripSign (pyLowerStr s).data == "inf".data ||
  stripSign (pyLowerStr s).data == "infinity".data

/-- Is the entry numeric-shaped?  A conservative superset of the strings
the reader converts to a number: every character drawn from the numeric
alphabet (digits, signs, decimal point, exponent letter), or an infinity
word.  Every integer literal is numeric-shaped. -/
def numericish (s : String) : Bool :=
  (!s.data.isEmpty && s.data.all numericChar) || infWord s

/-- Is the entry a boolean word ("True" or "False" in any case), which
the reader converts to bool? -/
def boolish (s : String) : Bool :=
  pyLowerStr s == "true" || pyLowerStr s == "false"

/-- Is the character a space or tab? -/
def isBlankChar (c : Char) : Bool :=
  c == ' ' || c == '\t'

/-- Does the entry avoid leading and trailing blanks?  (The reader's
numeric conversion strips edge whitespace, so entries with edge blanks
are excluded from the round-trip-safe text rather than modelled.) -/
def noEdgeBlank (s : String) : Bool :=
  (match s.data.head? with
   | some c => !isBlankChar c
   | none => true) &&
  (match s.data.getLast? with
   | some c => !isBlankChar c
   | none => true)

/-- Is the cell a present text value? -/
def isTextCell : Cell → Bool
  | Cell.str _ => true
  | _ => false

/-- A text cell survives the round trip only when it is not a
missing-value sentinel, not numeric-shaped, not a boolean word, and has
no edge blanks; integer and missing cells always pass.  (The empty
string is itself a sentinel.) -/
def strOkCell : Cell → Bool
  | Cell.str s =>
      !isNaSentinel s && !numericish s && !boolish s && noEdgeBlank s
  | _ => true

/-- Every text cell of the table is round-trip safe. -/
def textOk (t : RawTable) : Bool :=
  t.all (fun c => c.cells.all strOkCell)

/-- Every column is either all integers or holds at least one present
text value.  (A parsed column whose entries are all missing is read back
as floating point, outside the value-level model, so round-trip claims
require each text column to hold some present value.) -/
def presentOk (t : RawTable) : Bool :=
  t.all (fun k => k.cells.all isIntCell || k.cells.any isTextCell)

/-- One column of `read_csv` with its dtype inference (app.py line 56):
all integer literals read as an integer column; all numeric-shaped or
missing entries read as a floating-point column and all boolean words or
missing as a boolean column — both outside the value-level model, so no
result is modelled; every other column reads as text with the NA
sentinels as missing values. -/
def readColumnInfer (name : String) (raws : List String) : Option Column :=
  if raws.all isIntString then
    some ⟨name, raws.map (fun r => Cell.int (strToInt r))⟩
  else if raws.all (fun r => isNaSentinel r || numericish r) then
    none
  else if raws.all (fun r => isNaSentinel r || boolish r) then
    none
  else
    some ⟨name, raws.map (fun r => if isNaSentinel r then Cell.na else Cell.str r)⟩

/-- The `read_csv` step with full type inference, column by column; a
single column outside the model makes the whole read unmodelled. -/
def readColumnsInfer : List (String × List String) → Option (List Column)
  | [] => some []
  | p :: rest =>
    match readColumnInfer p.1 p.2, readColumnsInfer rest with
    | some c, some cs => some (c :: cs)
    | _, _ => none

/-- `load_data` on a present, parseable file under the full
type-inference reader: `read_csv` followed by the required-column
synthesis. -/
def load_dataInfer (raw : List (String × List String)) : Option RawTable :=
  (readColumnsInfer raw).map ensureRequired

/-! ### Concrete sample data used by counterexamples and witnesses -/

/-- A sample student row with a chosen id and last name. -/
def sampleStudent (n : Int) (nm : String) : Student :=
  { id := n
    nom := nm
    prenom := "Jean"
    specialite := "Informatique"
    moyenne_generale := 12
    age := 20
    date_inscription := "2024-01-01 10:00:00"
    email := "jean@exemple.fr"
    credits := 180
    statut := "Actif" }

/-- A table whose ids are exactly 1, 3 and 5. -/
def t135 : List Student :=
  [sampleStudent 1 "Durand", sampleStudent 3 "Martin", sampleStudent 5 "Petit"]

/-- A sample update form input. -/
def uSample : UpdateInput :=
  { nom := "Moreau"
    prenom := "Paul"
    specialite := "Droit"
    moyenne := 15
    age := 22
    email := "paul.moreau@exemple.fr"
    credits := 200
    statut := "Inactif" }

/-- A schema-conforming one-row stored table whose last name happens to be
the digit string "123". -/
def Tcex : RawTable :=
  [⟨"id", [Cell.int 1]⟩, ⟨"nom", [Cell.str "123"]⟩,
   ⟨"prenom", [Cell.str "Jean"]⟩, ⟨"specialite", [Cell.str "Informatique"]⟩,
   ⟨"moyenne_generale", [Cell.int 12]⟩, ⟨"age", [Cell.int 20]⟩,
   ⟨"date_inscription", [Cell.str "2024-01-01 10:00:00"]⟩,
   ⟨"email", [Cell.str "jean.dupont@universiteazure.fr"]⟩,
   ⟨"credits", [Cell.int 180]⟩, ⟨"statut", [Cell.str "Actif"]⟩]

/-- A schema-conforming one-row stored table whose last name is the
missing-value sentinel string "nan". -/
def TcexNa : RawTable :=
  [⟨"id", [Cell.int 1]⟩, ⟨"nom", [Cell.str "nan"]⟩,
   ⟨"prenom", [Cell.str "Jean"]⟩, ⟨"specialite", [Cell.str "Informatique"]⟩,
   ⟨"moyenne_generale", [Cell.int 12]⟩, ⟨"age", [Cell.int 20]⟩,
   ⟨"date_inscription", [Cell.str "2024-01-01 10:00:00"]⟩,
   ⟨"email", [Cell.str "jean.dupont@universiteazure.fr"]⟩,
   ⟨"credits", [Cell.int 180]⟩, ⟨"statut", [Cell.str "Actif"]⟩]

/-- A schema-conforming two-row stored table with round-trip-safe text,
including a missing email beside a present one. -/
def Tgood : RawTable :=
  [⟨"id", [Cell.int 1, Cell.int 2]⟩,
   ⟨"nom", [Cell.str "Dupont", Cell.str "Martin"]⟩,
   ⟨"prenom", [Cell.str "Jean", Cell.str "Marie"]⟩,
   ⟨"specialite", [Cell.str "Informatique", Cell.str "Droit"]⟩,
   ⟨"moyenne_generale", [Cell.int 12, Cell.int 15]⟩,
   ⟨"age", [Cell.int 20, Cell.int 22]⟩,
   ⟨"date_inscription",
    [Cell.str "2024-01-01 10:00:00", Cell.str "2024-02-01 09:30:00"]⟩,
   ⟨"email", [Cell.str "jean.dupont@exemple.fr", Cell.na]⟩,
   ⟨"credits", [Cell.int 180, Cell.int 200]⟩,
   ⟨"statut", [Cell.str "Actif", Cell.str "Inactif"]⟩]

/-! ### Lemmas: decimal printing and parsing invert each other -/

/-- Digit characters are digits. -/
theorem isDigitB_digitChar (d : Nat) (h : d < 10) :
    isDigitB (digitChar d) = true := by
  interval_cases d <;> decide

/-- Digit characters decode to their value. -/
theorem val_digitChar (d : Nat) (h : d < 10) :
    (digitChar d).toNat - 48 = d := by
  interval_cases d <;> decide

/-- Folding one more digit onto a digit run. -/
theorem digitsVal_append_last (l : List Char) (c : Char) :
    digitsVal (l ++ [c]) = digitsVal l * 10 + (c.toNat - 48) := by
  simp [digitsVal, List.foldl_append]

/-- With enough fuel the digit list is never empty. -/
theorem natToDigitsAux_ne_nil (fuel n : Nat) (h : n < fuel) :
    natToDigitsAux fuel n ≠ [] := by
  cases fuel with
  | zero => omega
  | succ f =>
    simp only [natToDigitsAux]
    split
    · simp
    · simp

/-- With enough fuel every produced character is a digit. -/
theorem natToDigitsAux_all_digit (fuel : Nat) :
    ∀ n, n < fuel → ∀ c ∈ natToDigitsAux fuel n, isDigitB c = true := by
  induction fuel with
  | zero => omega
  | succ f ih =>
    intro n hn c hc
    simp only [natToDigitsAux] at hc
    split at hc
    · simp at hc
      subst hc
      exact isDigitB_digitChar n (by omega)
    · rename_i h10
      rcases List.mem_append.1 hc with h1 | h2
      · exact ih (n / 10) (by omega) c h1
      · simp at h2
        subst h2
        exact isDigitB_digitChar (n % 10) (by omega)

/-- With enough fuel the digit list decodes to the number. -/
theorem digitsVal_natToDigitsAux (fuel : Nat) :
    ∀ n, n < fuel → digitsVal (natToDigitsAux fuel n) = n := by
  induction fuel with
  | zero => omega
  | succ f ih =>
    intro n hn
    simp only [natToDigitsAux]
    split
    · rename_i h10
      simp [digitsVal]
      exact val_digitChar n h10
    · rename_i h10
      rw [digitsVal_append_last, ih (n / 10) (by omega),
        val_digitChar (n % 10) (by omega)]
      omega

/-- The digit list of a natural number is non-empty. -/
theorem natToDigits_ne_nil (n : Nat) : natToDigits n ≠ [] :=
  natToDigitsAux_ne_nil (n + 1) n (by omega)

/-- Every character of a printed natural number is a digit. -/
theorem natToDigits_all_digit (n : Nat) :
    ∀ c ∈ natToDigits n, isDigitB c = true :=
  natToDigitsAux_all_digit (n + 1) n (by omega)

/-- Parsing the printed digits of a natural number recovers it. -/
theorem digitsVal_natToDigits (n : Nat) : digitsVal (natToDigits n) = n :=
  digitsVal_natToDigitsAux (n + 1) n (by omega)

/-- A digit character is not the minus sign. -/
theorem ne_dash_of_digit (c : Char) (h : isDigitB c = true) : ¬ (c = '-') := by
  intro hc
  subst hc
  simp [isDigitB] at h

/-- A printed integer has the shape of an integer literal. -/
theorem isIntString_intToStr (n : Int) : isIntString (intToStr n) = true := by
  by_cases hn : n < 0
  · simp only [intToStr, if_pos hn, isIntString]
    show (if ('-' : Char) = '-' then
            !(natToDigits n.natAbs).isEmpty && (natToDigits n.natAbs).all isDigitB
          else isDigitB '-' && (natToDigits n.natAbs).all isDigitB) = true
    rw [if_pos rfl]
    have h1 := natToDigits_ne_nil n.natAbs
    have h2 := natToDigits_all_digit n.natAbs
    rw [Bool.and_eq_true]
    refine ⟨?_, ?_⟩
    · simp [List.isEmpty_iff, h1]
    · simp only [List.all_eq_true]
      exact h2
  · simp only [intToStr, if_neg hn, isIntString]
    cases hl : natToDigits n.toNat with
    | nil => exact absurd hl (natToDigits_ne_nil _)
    | cons c rest =>
      have hmem : ∀ x ∈ c :: rest, isDigitB x = true := by
        rw [← hl]; exact natToDigits_all_digit n.toNat
      have hcd : isDigitB c = true := hmem c (by simp)
      show (if c = '-' then !rest.isEmpty && rest.all isDigitB
            else isDigitB c && rest.all isDigitB) = true
      rw [if_neg (ne_dash_of_digit c hcd)]
      simp [hcd, List.all_eq_true]
      intro x hx
      exact hmem x (by simp [hx])

/-- Parsing a printed integer recovers it. -/
theorem strToInt_intToStr (n : Int) : strToInt (intToStr n) = n := by
  by_cases hn : n < 0
  · simp only [intToStr, if_pos hn, strToInt]
    show (if ('-' : Char) = '-' then - (digitsVal (natToDigits n.natAbs) : Int)
          else (digitsVal ('-' :: natToDigits n.natAbs) : Int)) = n
    rw [if_pos rfl]
    have h : digitsVal (natToDigits n.natAbs) = n.natAbs := digitsVal_natToDigits _
    rw [h]
    omega
  · simp only [intToStr, if_neg hn, strToInt]
    cases hl : natToDigits n.toNat with
    | nil => exact absurd hl (natToDigits_ne_nil _)
    | cons c rest =>
      have hcd : isDigitB c = true := by
        have := natToDigits_all_digit n.toNat
        rw [hl] at this
        exact this c (by simp)
      show (if c = '-' then - (digitsVal rest : Int)
            else (digitsVal (c :: rest) : Int)) = n
      rw [if_neg (ne_dash_of_digit c hcd)]
      have h : digitsVal (c :: rest) = n.toNat := by
        rw [← hl]; exact digitsVal_natToDigits _
      rw [h]
      omega

/-! ### Lemmas: the literal regex fragment is substring search -/

/-- A pattern of literal tokens matches a prefix exactly when the
character list does. -/
theorem matchHere_lit (l : List Char) :
    ∀ s, matchHere (l.map PatTok.lit) s = leadsWith l s := by
  induction l with
  | nil => intro s; rfl
  | cons c cs ih =>
    intro s
    cases s with
    | nil => rfl
    | cons d ds =>
      simp only [List.map_cons, matchHere, leadsWith, tokMatches, ih ds]

/-- Regex search with a pattern of literal tokens is substring
containment. -/
theorem regexSearch_lit (l : List Char) :
    ∀ s, regexSearch (l.map PatTok.lit) s = occursIn l s := by
  intro s
  induction s with
  | nil => cases l <;> rfl
  | cons c cs ih =>
    simp only [regexSearch, occursIn, matchHere_lit l (c :: cs), ih]

/-- A query free of regex meaning parses to its literal tokens. -/
theorem parsePattern_all_lit (l : List Char)
    (h : ∀ c ∈ l, (!(c ∈ regexMeta) && c != '.') = true) :
    parsePattern l = some (l.map PatTok.lit) := by
  induction l with
  | nil => rfl
  | cons c cs ih =>
    have hc := h c (by simp)
    rw [Bool.and_eq_true] at hc
    have hdot : ¬ (c = '.') := by simpa using hc.2
    have hmeta : ¬ (c ∈ regexMeta) := by simpa using hc.1
    simp only [parsePattern]
    rw [if_neg hdot, if_neg hmeta, ih (fun d hd => h d (by simp [hd]))]
    rfl

/-! ### Lemmas: column round trip and required-column synthesis -/

/-- Every integer literal is numeric-shaped. -/
theorem numericish_of_isIntString (s : String) (h : isIntString s = true) :
    numericish s = true := by
  obtain ⟨l⟩ := s
  cases l with
  | nil => exact absurd h (by decide)
  | cons c rest =>
    have h2 : (if c = '-' then !rest.isEmpty && rest.all isDigitB
               else isDigitB c && rest.all isDigitB) = true := h
    have hgoal : ((String.mk (c :: rest)).data.all numericChar) = true := by
      show ((c :: rest).all numericChar) = true
      rw [List.all_cons, Bool.and_eq_true]
      by_cases hcd : c = '-'
      · rw [if_pos hcd, Bool.and_eq_true] at h2
        subst hcd
        refine ⟨by decide, ?_⟩
        rw [List.all_eq_true] at h2 ⊢
        intro x hx
        have := h2.2 x hx
        simp [numericChar, this]
      · rw [if_neg hcd, Bool.and_eq_true] at h2
        refine ⟨by simp [numericChar, h2.1], ?_⟩
        rw [List.all_eq_true] at h2 ⊢
        intro x hx
        have := h2.2 x hx
        simp [numericChar, this]
    simp [numericish, hgoal]

/-- An all-integer column survives the write / read cycle: every
serialized entry is an integer literal, so inference restores the
integer column. -/
theorem readColumnInfer_write_int (name : String) (cells : List Cell)
    (h : ∀ x ∈ cells, isIntCell x = true) :
    readColumnInfer name (cells.map writeCell) = some ⟨name, cells⟩ := by
  have hall : (cells.map writeCell).all isIntString = true := by
    rw [List.all_eq_true]
    intro r hr
    rcases List.mem_map.1 hr with ⟨x, hx, rfl⟩
    have := h x hx
    cases x with
    | int n => exact isIntString_intToStr n
    | str s => simp [isIntCell] at this
    | na => simp [isIntCell] at this
  have hmap : (cells.map writeCell).map (fun r => Cell.int (strToInt r)) = cells := by
    rw [List.map_map]
    conv_rhs => rw [← List.map_id cells]
    apply List.map_congr_left
    intro x hx
    have := h x hx
    cases x with
    | int n => simp [Function.comp, writeCell, strToInt_intToStr]
    | str s => simp [isIntCell] at this
    | na => simp [isIntCell] at this
  rw [readColumnInfer, if_pos hall, hmap]

/-- A column of round-trip-safe text and missing cells holding at least
one present text value survives the write / read cycle: the witness
entry defeats the integer, numeric and boolean inference tests, so the
column is read back as text with the sentinels as missing values. -/
theorem readColumnInfer_write_text (name : String) (cells : List Cell)
    (hpres : ∃ x ∈ cells, isTextCell x = true)
    (h : ∀ x ∈ cells, textOrNa x = true ∧ strOkCell x = true) :
    readColumnInfer name (cells.map writeCell) = some ⟨name, cells⟩ := by
  obtain ⟨w, hw, hwt⟩ := hpres
  cases w with
  | int n => simp [isTextCell] at hwt
  | na => simp [isTextCell] at hwt
  | str sw =>
    have hsok := (h _ hw).2
    simp only [strOkCell, Bool.and_eq_true, Bool.not_eq_true'] at hsok
    obtain ⟨⟨⟨hsent, hnum⟩, hbool⟩, _hedge⟩ := hsok
    have hmem : sw ∈ cells.map writeCell :=
      List.mem_map.2 ⟨Cell.str sw, hw, rfl⟩
    have hb1 : ¬ ((cells.map writeCell).all isIntString = true) := by
      intro hall
      have hint := List.all_eq_true.1 hall sw hmem
      have := numericish_of_isIntString sw hint
      rw [hnum] at this
      exact absurd this (by simp)
    have hb2 : ¬ ((cells.map writeCell).all
        (fun r => isNaSentinel r || numericish r) = true) := by
      intro hall
      have := List.all_eq_true.1 hall sw hmem
      rw [hsent, hnum] at this
      exact absurd this (by simp)
    have hb3 : ¬ ((cells.map writeCell).all
        (fun r => isNaSentinel r || boolish r) = true) := by
      intro hall
      have := List.all_eq_true.1 hall sw hmem
      rw [hsent, hbool] at this
      exact absurd this (by simp)
    have hmap : (cells.map writeCell).map
        (fun r => if isNaSentinel r then Cell.na else Cell.str r) = cells := by
      rw [List.map_map]
      conv_rhs => rw [← List.map_id cells]
      apply List.map_congr_left
      intro y hy
      have hy2 := h y hy
      cases y with
      | int n =>
        have := hy2.1
        simp [textOrNa] at this
      | na =>
        have : isNaSentinel "" = true := by decide
        simp [Function.comp, writeCell, this]
      | str u =>
        have hu := hy2.2
        simp only [strOkCell, Bool.and_eq_true, Bool.not_eq_true'] at hu
        simp [Function.comp, writeCell, hu.1.1.1]
    rw [readColumnInfer, if_neg hb1, if_neg hb2, if_neg hb3, hmap]

/-- A required text column (all cells non-empty text) survives the
write / read cycle when its text is round-trip safe. -/
theorem readColumnInfer_write_req (name : String) (cells : List Cell)
    (h2 : ∀ x ∈ cells, nonEmptyText x = true)
    (hstr : ∀ x ∈ cells, strOkCell x = true) :
    readColumnInfer name (cells.map writeCell) = some ⟨name, cells⟩ := by
  cases cells with
  | nil => exact readColumnInfer_write_int name [] (by simp)
  | cons x xs =>
    have hx := h2 x (by simp)
    have hpres : ∃ y ∈ x :: xs, isTextCell y = true := by
      refine ⟨x, by simp, ?_⟩
      cases x with
      | int n => simp [nonEmptyText] at hx
      | na => simp [nonEmptyText] at hx
      | str s => rfl
    refine readColumnInfer_write_text name (x :: xs) hpres ?_
    intro y hy
    have hy2 := h2 y hy
    refine ⟨?_, hstr y hy⟩
    cases y with
    | int n => simp [nonEmptyText] at hy2
    | na => simp [nonEmptyText] at hy2
    | str s => rfl

/-- An optional text column (text or missing cells) survives the
write / read cycle when its text is round-trip safe and the column is
all-integer (hence empty here) or holds some present value. -/
theorem readColumnInfer_write_opt (name : String) (cells : List Cell)
    (h2 : ∀ x ∈ cells, textOrNa x = true)
    (hstr : ∀ x ∈ cells, strOkCell x = true)
    (hp : (cells.all isIntCell || cells.any isTextCell) = true) :
    readColumnInfer name (cells.map writeCell) = some ⟨name, cells⟩ := by
  rw [Bool.or_eq_true] at hp
  rcases hp with hp | hp
  · rw [List.all_eq_true] at hp
    exact readColumnInfer_write_int name cells hp
  · rw [List.any_eq_true] at hp
    exact readColumnInfer_write_text name cells hp
      (fun x hx => ⟨h2 x hx, hstr x hx⟩)

/-- When every required column name is already present, the synthesis
loop of `load_data` adds nothing. -/
theorem ensureRequired_of_all_present (t : RawTable)
    (h : ∀ r ∈ requiredColumns, t.any (fun col => col.name == r) = true) :
    ensureRequired t = t := by
  have hfil : requiredColumns.filter
      (fun r => !(t.any (fun col => col.name == r))) = [] := by
    rw [List.filter_eq_nil_iff]
    intro r hr
    simp [h r hr]
  simp [ensureRequired, hfil]

/-- Every required column name appears among the loaded column names
after the synthesis loop. -/
theorem mem_name_ensureRequired (t : RawTable) (c : String)
    (hc : c ∈ requiredColumns) :
    c ∈ (ensureRequired t).map Column.name := by
  cases h : t.any (fun col => col.name == c) with
  | true =>
    rcases List.any_eq_true.1 h with ⟨col, hcol, hbeq⟩
    have : col.name = c := by simpa using hbeq
    exact List.mem_map.2 ⟨col, List.mem_append_left _ hcol, this⟩
  | false =>
    refine List.mem_map.2 ⟨⟨c, List.replicate (nrows t) Cell.na⟩, ?_, rfl⟩
    refine List.mem_append_right _ ?_
    refine List.mem_map.2 ⟨c, ?_, rfl⟩
    refine List.mem_filter.2 ⟨hc, ?_⟩
    simp [h]

/-- A required column missing from the loaded frame is synthesized as a
column of missing values of the frame's row count. -/
theorem synthesized_mem_ensureRequired (t : RawTable) (c : String)
    (hc : c ∈ requiredColumns)
    (habs : t.any (fun col => col.name == c) = false) :
    Column.mk c (List.replicate (nrows t) Cell.na) ∈ ensureRequired t := by
  refine List.mem_append_right _ ?_
  refine List.mem_map.2 ⟨c, ?_, rfl⟩
  refine List.mem_filter.2 ⟨hc, ?_⟩
  simp [habs]

/-! ### Lemmas: the id maximum bounds every id in the table -/

/-- The seed of the running maximum never exceeds the fold's result. -/
theorem init_le_foldl_max (l : List Student) (b : Int) :
    b ≤ l.foldl (fun m r => max m r.id) b := by
  induction l generalizing b with
  | nil => exact le_refl b
  | cons r l ih =>
    exact le_trans (le_max_left b r.id) (ih (max b r.id))

/-- Every listed id is bounded by the fold's result. -/
theorem mem_le_foldl_max (l : List Student) (x : Student) :
    ∀ b : Int, x ∈ l → x.id ≤ l.foldl (fun m r => max m r.id) b := by
  induction l with
  | nil => intro b hx; cases hx
  | cons r l ih =>
    intro b hx
    rcases List.mem_cons.1 hx with rfl | hx2
    · exact le_trans (le_max_right b x.id) (init_le_foldl_max l (max b x.id))
    · exact ih (max b r.id) hx2

/-- Every id in the table is at most `maxId`. -/
theorem le_maxId (t : List Student) (x : Student) (hx : x ∈ t) :
    x.id ≤ maxId t := by
  cases t with
  | nil => cases hx
  | cons s rest =>
    rcases List.mem_cons.1 hx with rfl | hx2
    · exact init_le_foldl_max rest x.id
    · exact mem_le_foldl_max rest x s.id hx2

/-! ### Claim theorems -/

/-- C5: for every table and every creation input in which nom, prenom or
specialite is empty, the create handler signals the validation error and
performs no mutation: the state (in-memory table and persisted storage)
is returned unchanged, so no record is appended. -/
theorem create_invalid_input_no_mutation (universityName now : String)
    (st : AppState) (i : CreateInput)
    (h : i.nom = "" ∨ i.prenom = "" ∨ i.specialite = "") :
    createHandler universityName now st i = (st, CreateResult.validationError) ∧
    reload (createHandler universityName now st i).1 = reload st := by
  have hcond : (i.nom != "" && i.prenom != "" && i.specialite != "") = false := by
    rcases h with h | h | h <;> simp [h]
  have heq : createHandler universityName now st i =
      (st, CreateResult.validationError) := by
    simp [createHandler, hcond]
  exact ⟨heq, by rw [heq]⟩

/-- Witness for C5 at the specification's example input
(nom empty, prenom "Jean", specialite "Informatique"). -/
theorem create_invalid_input_no_mutation_witness :
    createHandler "Université Azure" "2024-01-01 10:00:00" ⟨t135, t135⟩
        ⟨"", "Jean", "Informatique", 12, 20, "", 180⟩ =
      (⟨t135, t135⟩, CreateResult.validationError) :=
  (create_invalid_input_no_mutation "Université Azure" "2024-01-01 10:00:00"
    ⟨t135, t135⟩ ⟨"", "Jean", "Informatique", 12, 20, "", 180⟩ (Or.inl rfl)).1

/-- C7: after delete, the reloaded table contains no record with the
deleted id; the remaining records are exactly the non-matching ones, in
their original order (an order-preserving sublist keeping every
non-matching record); when no record matches, the handler leaves the
table as it was (silent no-op). -/
theorem delete_removes_matching_id (st : AppState) (sid : Int) :
    (∀ s ∈ reload (deleteHandler st sid), s.id ≠ sid) ∧
    (reload (deleteHandler st sid)).Sublist st.table ∧
    (∀ s ∈ st.table, s.id ≠ sid → s ∈ reload (deleteHandler st sid)) ∧
    ((∀ s ∈ st.table, s.id ≠ sid) → deleteHandler st sid = ⟨st.table, st.table⟩) := by
  refine ⟨?_, ?_, ?_, ?_⟩
  · intro s hs
    have hm := List.mem_filter.1 hs
    simpa using hm.2
  · exact List.filter_sublist _
  · intro s hs hne
    exact List.mem_filter.2 ⟨hs, by simpa using hne⟩
  · intro hall
    have hkeep : deleteStudent st.table sid = st.table := by
      rw [deleteStudent, List.filter_eq_self]
      intro s hs
      simpa using hall s hs
    simp [deleteHandler, hkeep]

/-- Witness for C7: deleting id 3 from the table with ids 1, 3, 5. -/
theorem delete_removes_matching_id_witness :
    (∀ s ∈ reload (deleteHandler ⟨t135, t135⟩ 3), s.id ≠ 3) ∧
    (reload (deleteHandler ⟨t135, t135⟩ 3)).Sublist t135 :=
  ⟨(delete_removes_matching_id ⟨t135, t135⟩ 3).1,
   (delete_removes_matching_id ⟨t135, t135⟩ 3).2.1⟩

/-- C9: the configuration loader returns the parsed contents when the
file exists and parses; on a parse failure it returns the hardcoded
defaults and leaves the file untouched (no partial merge); when the file
is absent it returns the defaults and writes them out. -/
theorem load_config_behavior :
    (∀ c : Config, load_config (ConfigFile.parsed c) = (c, ConfigFile.parsed c)) ∧
    (∀ r : String, load_config (ConfigFile.unparseable r) =
      (default_config, ConfigFile.unparseable r)) ∧
    load_config ConfigFile.absent = (default_config, ConfigFile.parsed default_config) :=
  ⟨fun _ => rfl, fun _ => rfl, rfl⟩

/-- C2: on a valid creation input the handler appends exactly one record,
whose id is the table's maximum id plus one (or 1 on an empty table), so
the new id is strictly greater than every pre-existing id. -/
theorem create_appends_with_max_plus_one_id (universityName now : String)
    (st : AppState) (i : CreateInput)
    (hn : i.nom ≠ "") (hp : i.prenom ≠ "") (hs : i.specialite ≠ "") :
    ∃ s : Student,
      createHandler universityName now st i =
        (⟨st.table ++ [s], st.table ++ [s]⟩, CreateResult.ok s.id) ∧
      (reload (createHandler universityName now st i).1).length =
        st.table.length + 1 ∧
      s.id = (if st.table.length > 0 then maxId st.table + 1 else 1) ∧
      (∀ x ∈ st.table, x.id < s.id) := by
  have hcond : (i.nom != "" && i.prenom != "" && i.specialite != "") = true := by
    simp [hn, hp, hs]
  refine ⟨newStudent universityName now st.table i, ?_, ?_, rfl, ?_⟩
  · simp [createHandler, hcond]
  · simp [createHandler, hcond, reload]
  · intro x hx
    have hle : x.id ≤ maxId st.table := le_maxId st.table x hx
    have hlen : st.table.length > 0 :=
      List.length_pos.2 (List.ne_nil_of_mem hx)
    have hid : (newStudent universityName now st.table i).id =
        maxId st.table + 1 := by
      simp [newStudent, newId, hlen]
    omega

/-- Witness for C2: on the table with ids 1, 3 and 5 the create handler
allocates id 6. -/
theorem create_appends_with_max_plus_one_id_witness :
    (∃ s : Student,
      createHandler "Université Azure" "2024-01-01 10:00:00" ⟨t135, t135⟩
          ⟨"Dupont", "Jean", "Informatique", 12, 20, "", 180⟩ =
        (⟨t135 ++ [s], t135 ++ [s]⟩, CreateResult.ok s.id) ∧
      (reload (createHandler "Université Azure" "2024-01-01 10:00:00"
          ⟨t135, t135⟩ ⟨"Dupont", "Jean", "Informatique", 12, 20, "", 180⟩).1).length =
        t135.length + 1 ∧
      s.id = (if t135.length > 0 then maxId t135 + 1 else 1) ∧
      (∀ x ∈ t135, x.id < s.id)) ∧
    (createHandler "Université Azure" "2024-01-01 10:00:00" ⟨t135, t135⟩
        ⟨"Dupont", "Jean", "Informatique", 12, 20, "", 180⟩).2 =
      CreateResult.ok 6 :=
  ⟨create_appends_with_max_plus_one_id "Université Azure" "2024-01-01 10:00:00"
      ⟨t135, t135⟩ ⟨"Dupont", "Jean", "Informatique", 12, 20, "", 180⟩
      (by decide) (by decide) (by decide),
   by decide⟩

/-- C8: on a valid creation input the new record is stamped with the
current timestamp as enrollment date, status "Actif", and, when no email
was supplied, the derived email
firstname.lastname at the institution domain; on an empty table its id
is 1. -/
theorem create_defaults_and_derived_email (universityName now : String)
    (st : AppState) (i : CreateInput)
    (hn : i.nom ≠ "") (hp : i.prenom ≠ "") (hs : i.specialite ≠ "")
    (he : i.email = "") :
    ∃ s : Student,
      createHandler universityName now st i =
        (⟨st.table ++ [s], st.table ++ [s]⟩, CreateResult.ok s.id) ∧
      s.statut = "Actif" ∧
      s.date_inscription = now ∧
      s.email = deriveEmail universityName i.prenom i.nom ∧
      (st.table = [] → s.id = 1) := by
  have hcond : (i.nom != "" && i.prenom != "" && i.specialite != "") = true := by
    simp [hn, hp, hs]
  refine ⟨newStudent universityName now st.table i, ?_, rfl, rfl, ?_, ?_⟩
  · simp [createHandler, hcond]
  · simp [newStudent, he]
  · intro h0
    simp [newStudent, newId, h0]

/-- Witness for C8 at the specification's example: create on an empty
table yields id 1, status "Actif", and email jean.dupont at the
institution domain; the derivation also lowercases accented initials
(Éric becomes éric), matching Python `str.lower`. -/
theorem create_defaults_and_derived_email_witness :
    (∃ s : Student,
      createHandler "Université Azure" "2024-01-01 10:00:00" ⟨[], []⟩
          ⟨"Dupont", "Jean", "Informatique", 12, 20, "", 180⟩ =
        (⟨[] ++ [s], [] ++ [s]⟩, CreateResult.ok s.id) ∧
      s.statut = "Actif" ∧
      s.date_inscription = "2024-01-01 10:00:00" ∧
      s.email = deriveEmail "Université Azure" "Jean" "Dupont" ∧
      (([] : List Student) = [] → s.id = 1)) ∧
    deriveEmail "Université Azure" "Jean" "Dupont" =
      "jean.dupont@universitéazure.fr" ∧
    deriveEmail "Université Azure" "Éric" "Dupont" =
      "éric.dupont@universitéazure.fr" :=
  ⟨create_defaults_and_derived_email "Université Azure" "2024-01-01 10:00:00"
      ⟨[], []⟩ ⟨"Dupont", "Jean", "Informatique", 12, 20, "", 180⟩
      (by decide) (by decide) (by decide) rfl,
   by decide, by decide⟩

/-- C6: update on a table containing the given id leaves the table length
unchanged; every row with a different id is untouched; every row with the
given id has its eight mutable columns overwritten with the form values
while its id and enrollment date are preserved. -/
theorem update_rewrites_matching_rows_only (st : AppState) (sid : Int)
    (u : UpdateInput) (_hmem : ∃ s ∈ st.table, s.id = sid) :
    (reload (updateHandler st sid u)).length = st.table.length ∧
    ∀ i : Nat, ∀ s : Student, st.table[i]? = some s →
      (s.id ≠ sid → (reload (updateHandler st sid u))[i]? = some s) ∧
      (s.id = sid →
        (reload (updateHandler st sid u))[i]? = some (applyUpdate u s) ∧
        (applyUpdate u s).id = s.id ∧
        (applyUpdate u s).date_inscription = s.date_inscription ∧
        (applyUpdate u s).nom = u.nom ∧
        (applyUpdate u s).prenom = u.prenom ∧
        (applyUpdate u s).specialite = u.specialite ∧
        (applyUpdate u s).moyenne_generale = u.moyenne ∧
        (applyUpdate u s).age = u.age ∧
        (applyUpdate u s).email = u.email ∧
        (applyUpdate u s).credits = u.credits ∧
        (applyUpdate u s).statut = u.statut) := by
  have hre : reload (updateHandler st sid u) = updateStudents st.table sid u := rfl
  refine ⟨by simp [hre, updateStudents], ?_⟩
  intro i s hi
  have hidx : (updateStudents st.table sid u)[i]? =
      some (if s.id = sid then applyUpdate u s else s) := by
    rw [updateStudents, List.getElem?_map, hi]
    rfl
  constructor
  · intro hne
    rw [hre, hidx, if_neg hne]
  · intro heq
    exact ⟨by rw [hre, hidx, if_pos heq], rfl, rfl, rfl, rfl, rfl, rfl,
      rfl, rfl, rfl, rfl⟩

/-- Witness for C6: updating id 3 in the table with ids 1, 3, 5 keeps the
table length. -/
theorem update_rewrites_matching_rows_only_witness :
    (reload (updateHandler ⟨t135, t135⟩ 3 uSample)).length = t135.length :=
  (update_rewrites_matching_rows_only ⟨t135, t135⟩ 3 uSample (by decide)).1

/-- C10: when several rows share the same id (as permitted by an
append-mode bulk import), the update handler overwrites every row whose
id equals the selected id, not a single one. -/
theorem update_writes_every_duplicate_row (st : AppState) (sid : Int)
    (u : UpdateInput) (i j : Nat) (s1 s2 : Student) (_hij : i ≠ j)
    (h1 : st.table[i]? = some s1) (h2 : st.table[j]? = some s2)
    (e1 : s1.id = sid) (e2 : s2.id = sid) :
    (reload (updateHandler st sid u))[i]? = some (applyUpdate u s1) ∧
    (reload (updateHandler st sid u))[j]? = some (applyUpdate u s2) := by
  have hre : reload (updateHandler st sid u) = updateStudents st.table sid u := rfl
  constructor
  · rw [hre, updateStudents, List.getElem?_map, h1]
    simp [e1]
  · rw [hre, updateStudents, List.getElem?_map, h2]
    simp [e2]

/-- Witness for C10: two rows with id 1 produced by an append-mode import
are both overwritten by one update. -/
theorem update_writes_every_duplicate_row_witness :
    (reload (updateHandler
        ⟨importAppend [sampleStudent 1 "Durand"] [sampleStudent 1 "Martin"],
         importAppend [sampleStudent 1 "Durand"] [sampleStudent 1 "Martin"]⟩
        1 uSample))[0]? = some (applyUpdate uSample (sampleStudent 1 "Durand")) ∧
    (reload (updateHandler
        ⟨importAppend [sampleStudent 1 "Durand"] [sampleStudent 1 "Martin"],
         importAppend [sampleStudent 1 "Durand"] [sampleStudent 1 "Martin"]⟩
        1 uSample))[1]? = some (applyUpdate uSample (sampleStudent 1 "Martin")) :=
  update_writes_every_duplicate_row
    ⟨importAppend [sampleStudent 1 "Durand"] [sampleStudent 1 "Martin"],
     importAppend [sampleStudent 1 "Durand"] [sampleStudent 1 "Martin"]⟩
    1 uSample 0 1 (sampleStudent 1 "Durand") (sampleStudent 1 "Martin")
    (by decide) rfl rfl rfl rfl

/-- C1 (amended): loading a present, parseable stored table always
succeeds and yields a column set containing each of the eight columns of
the handler's required list (id, nom, prenom, specialite,
moyenne_generale, age, date_inscription, email), synthesizing each
missing one as a column of missing values; credits and statut are not in
that list. -/
theorem load_data_synthesizes_required_columns
    (raw : List (String × List String)) :
    (∀ c ∈ requiredColumns, c ∈ (load_data raw).map Column.name) ∧
    (∀ c ∈ requiredColumns,
      (loadTable raw).any (fun col => col.name == c) = false →
      Column.mk c (List.replicate (nrows (loadTable raw)) Cell.na) ∈
        load_data raw) :=
  ⟨fun c hc => mem_name_ensureRequired (loadTable raw) c hc,
   fun c hc habs => synthesized_mem_ensureRequired (loadTable raw) c hc habs⟩

/-- Counterexample for C1 as stated: a stored file holding only an `id`
column loads without the `credits` and `statut` columns, so the loaded
column set is not a superset of the canonical ten fields. -/
theorem load_data_omits_credits_and_statut :
    ¬ (∀ c ∈ canonicalColumns,
        c ∈ (load_data [("id", ([] : List String))]).map Column.name) := by
  decide

/-- Witness for C1 (amended): on the same one-column file, `email` is
synthesized as a missing-value column. -/
theorem load_data_synthesizes_required_columns_witness :
    "email" ∈ (load_data [("id", ([] : List String))]).map Column.name ∧
    Column.mk "email"
        (List.replicate (nrows (loadTable [("id", ([] : List String))])) Cell.na) ∈
      load_data [("id", ([] : List String))] :=
  ⟨(load_data_synthesizes_required_columns [("id", [])]).1 "email" (by decide),
   (load_data_synthesizes_required_columns [("id", [])]).2 "email" (by decide)
     (by decide)⟩

/-- C4 (amended): saving and reloading restores a schema-conforming
table exactly, provided every text cell is round-trip safe (not a
missing-value sentinel, not numeric- or boolean-shaped, no edge blanks)
and every text column holds at least one present value; columns the
reader would convert to floating point or booleans are outside the
value-level model. -/
theorem csv_round_trip_of_safe_columns (t : RawTable)
    (hc : conforming t = true) (ht : textOk t = true)
    (hp : presentOk t = true) :
    load_dataInfer (saveTable t) = some t := by
  unfold conforming at hc
  split at hc
  case h_2 => exact absurd hc (by simp)
  case h_1 k1 k2 k3 k4 k5 k6 k7 k8 k9 k10 =>
    simp only [Bool.and_eq_true, columnIs, beq_iff_eq, List.all_eq_true] at hc
    obtain ⟨⟨⟨⟨⟨⟨⟨⟨⟨⟨hn1, h1⟩, hn2, h2⟩, hn3, h3⟩, hn4, h4⟩, hn5, h5⟩,
      hn6, h6⟩, hn7, h7⟩, hn8, h8⟩, hn9, h9⟩, hn10, h10⟩ := hc
    simp only [textOk, List.all_eq_true] at ht
    simp only [presentOk, List.all_cons, List.all_nil, Bool.and_true,
      Bool.and_eq_true] at hp
    obtain ⟨hp1, hp2, hp3, hp4, hp5, hp6, hp7, hp8, hp9, hp10⟩ := hp
    have hok1 : readColumnInfer k1.name (k1.cells.map writeCell) = some k1 :=
      readColumnInfer_write_int _ _ h1
    have hok2 : readColumnInfer k2.name (k2.cells.map writeCell) = some k2 :=
      readColumnInfer_write_req _ _ h2 (ht k2 (by simp))
    have hok3 : readColumnInfer k3.name (k3.cells.map writeCell) = some k3 :=
      readColumnInfer_write_req _ _ h3 (ht k3 (by simp))
    have hok4 : readColumnInfer k4.name (k4.cells.map writeCell) = some k4 :=
      readColumnInfer_write_req _ _ h4 (ht k4 (by simp))
    have hok5 : readColumnInfer k5.name (k5.cells.map writeCell) = some k5 :=
      readColumnInfer_write_int _ _ h5
    have hok6 : readColumnInfer k6.name (k6.cells.map writeCell) = some k6 :=
      readColumnInfer_write_int _ _ h6
    have hok7 : readColumnInfer k7.name (k7.cells.map writeCell) = some k7 :=
      readColumnInfer_write_opt _ _ h7 (ht k7 (by simp)) hp7
    have hok8 : readColumnInfer k8.name (k8.cells.map writeCell) = some k8 :=
      readColumnInfer_write_opt _ _ h8 (ht k8 (by simp)) hp8
    have hok9 : readColumnInfer k9.name (k9.cells.map writeCell) = some k9 :=
      readColumnInfer_write_int _ _ h9
    have hok10 : readColumnInfer k10.name (k10.cells.map writeCell) = some k10 :=
      readColumnInfer_write_opt _ _ h10 (ht k10 (by simp)) hp10
    have hload : readColumnsInfer
        (saveTable [k1, k2, k3, k4, k5, k6, k7, k8, k9, k10]) =
        some [k1, k2, k3, k4, k5, k6, k7, k8, k9, k10] := by
      simp only [saveTable, List.map_cons, List.map_nil, readColumnsInfer,
        hok1, hok2, hok3, hok4, hok5, hok6, hok7, hok8, hok9, hok10]
    have hens : ensureRequired [k1, k2, k3, k4, k5, k6, k7, k8, k9, k10] =
        [k1, k2, k3, k4, k5, k6, k7, k8, k9, k10] := by
      apply ensureRequired_of_all_present
      intro r hr
      fin_cases hr <;>
        simp [List.any_cons, hn1, hn2, hn3, hn4, hn5, hn6, hn7, hn8]
    unfold load_dataInfer
    rw [hload]
    simp [hens]

/-- Counterexample for C4 as stated: two conforming tables that do not
survive the round trip.  A last name that is the digit string "123" is
re-typed by the reader's inference into the integer 123; a last name
that is the sentinel string "nan" makes the whole column missing (read
back as floating point NaN), outside the value-level model. -/
theorem csv_round_trip_counterexample :
    (conforming Tcex = true ∧
      load_dataInfer (saveTable Tcex) ≠ some Tcex) ∧
    (conforming TcexNa = true ∧
      load_dataInfer (saveTable TcexNa) ≠ some TcexNa) := by
  decide

/-- Witness for C4 (amended): a conforming two-row table with
round-trip-safe text, including a missing email beside a present one,
does survive the round trip. -/
theorem csv_round_trip_of_safe_columns_witness :
    conforming Tgood = true ∧ textOk Tgood = true ∧ presentOk Tgood = true ∧
    load_dataInfer (saveTable Tgood) = some Tgood :=
  ⟨by decide, by decide, by decide,
   csv_round_trip_of_safe_columns Tgood (by decide) (by decide) (by decide)⟩

/-- C3 (amended): for a query whose characters carry no regex meaning,
the search result is an order-preserving sublist of the table containing
exactly the rows in which some text cell, rendered to a string (a
missing value rendering as "nan" or "None") and lowercased, contains the
lowercased query; on rows without missing values this coincides with
containment in the actual text values. -/
theorem search_literal_query (t : List SearchRow) (q : String)
    (hq : litQuery q = true) :
    ∃ res, searchRows t q = some res ∧
      res.Sublist t ∧
      (∀ r : SearchRow, r ∈ res ↔ r ∈ t ∧
        r.any (fun c => occursIn (pyLowerStr q).data
          (pyLowerStr (renderCell c)).data) = true) ∧
      (∀ r ∈ t, (∀ c ∈ r, ∃ s, c = TextCell.present s) →
        r.any (fun c => occursIn (pyLowerStr q).data
          (pyLowerStr (renderCell c)).data) = specRowMatches q r) := by
  have hq2 : ∀ c ∈ (pyLowerStr q).data, (!(c ∈ regexMeta) && c != '.') = true := by
    rw [litQuery, List.all_eq_true] at hq
    exact hq
  have hparse : parsePattern (pyLowerStr q).data =
      some ((pyLowerStr q).data.map PatTok.lit) :=
    parsePattern_all_lit _ hq2
  have hrow : ∀ r : SearchRow,
      rowMatches ((pyLowerStr q).data.map PatTok.lit) r =
      r.any (fun c => occursIn (pyLowerStr q).data
        (pyLowerStr (renderCell c)).data) := by
    intro r
    simp only [rowMatches, cellMatches]
    induction r with
    | nil => rfl
    | cons c cs ih =>
      simp only [List.any_cons, ih, cellMatches, regexSearch_lit]
  refine ⟨t.filter (rowMatches ((pyLowerStr q).data.map PatTok.lit)),
    ?_, List.filter_sublist _, ?_, ?_⟩
  · rw [searchRows, hparse]
    rfl
  · intro r
    rw [List.mem_filter, hrow r]
  · intro r hr
    clear hr
    induction r with
    | nil => intro _; rfl
    | cons c cs ih =>
      intro hall
      obtain ⟨s, rfl⟩ := hall c (by simp)
      have ih2 := ih (fun x hx => hall x (by simp [hx]))
      simp only [List.any_cons, specRowMatches] at ih2 ⊢
      rw [ih2]
      rfl

/-- Counterexample for C3 as stated: the query is used as a regex
pattern, so "." matches a row whose text contains no dot; and a missing
value beside a present one (an object column with a NaN) renders as
"nan" and matches the query "nan" though no text column contains it. -/
theorem search_regex_and_missing_counterexample :
    (searchRows [[TextCell.present "abc"]] "." =
        some [[TextCell.present "abc"]] ∧
      specRowMatches "." [TextCell.present "abc"] = false) ∧
    (searchRows [[TextCell.present "Dupont"], [TextCell.naFloat]] "nan" =
        some [[TextCell.naFloat]] ∧
      specRowMatches "nan" [TextCell.naFloat] = false) := by
  decide

/-- Witness for C3 (amended) at the literal query "mart" on a concrete
two-row table. -/
theorem search_literal_query_witness :
    ∃ res, searchRows [[TextCell.present "Dupont"], [TextCell.present "Martin"]]
        "mart" = some res ∧
      res.Sublist [[TextCell.present "Dupont"], [TextCell.present "Martin"]] ∧
      (∀ r : SearchRow, r ∈ res ↔
        r ∈ [[TextCell.present "Dupont"], [TextCell.present "Martin"]] ∧
        r.any (fun c => occursIn (pyLowerStr "mart").data
          (pyLowerStr (renderCell c)).data) = true) ∧
      (∀ r ∈ [[TextCell.present "Dupont"], [TextCell.present "Martin"]],
        (∀ c ∈ r, ∃ s, c = TextCell.present s) →
        r.any (fun c => occursIn (pyLowerStr "mart").data
          (pyLowerStr (renderCell c)).data) = specRowMatches "mart" r) :=
  search_literal_query [[TextCell.present "Dupont"], [TextCell.present "Martin"]]
    "mart" (by decide)
